import Mathlib

/-!
Verification of the resumable time-series synchronization engine of the
litteStocks repository (source files etf_data_manager.py and
etf_min_data_downloader.py), via a shallow embedding of its data model and
operations.

Conventions of the embedding:
- calendar days are modelled as natural numbers (one unit = one day), so
  a date string such as 20240101 becomes an abstract day number;
- a CSV dataset row becomes a Row with its date key and one opaque value
  field standing for the open/high/low/close/volume columns (the merge and
  sort logic of the source operates on the date key alone);
- a dataset file becomes a List Row, and a download directory becomes an
  association list from symbol to file content;
- Python strings are modelled as Lean String, and filenames as List Char,
  whose per-character replacement is exactly the semantics of the source
  calls str.replace with a one-character pattern;
- a pandas sort by the unique date key is modelled by insertion sort on the
  date key; on inputs with distinct dates every comparison sort agrees;
- Python float delays are modelled by exact rationals;
- a provider call that raises is modelled as the fetch function returning
  none for that attempt, and a call that completes returning some rows.
-/

/-- One dataset row: the date key plus one opaque value standing for all
the numeric columns of the CSV row. -/
structure Row where
  date : Nat
  val : Int
deriving DecidableEq, Repr

/-- Embedding of the date ordering used by the sort on the date column. -/
instance : IsTotal Row fun a b => a.date ≤ b.date :=
  ⟨fun a b => Nat.le_total a.date b.date⟩

instance : IsTrans Row fun a b => a.date ≤ b.date :=
  ⟨fun _ _ _ => Nat.le_trans⟩

/-- Embedding of get_last_date_from_file: the date of the last row of the
file, none when no data row is readable (for example a file that holds the
header only, which makes the source return None). -/
def lastDateOf (rows : List Row) : Option Nat :=
  rows.getLast?.map Row.date

/-- Embedding of one str.replace call with a one-character pattern, as in
clean_name.replace in generate_filename of etf_data_manager.py. -/
def replaceChar (pat rep : Char) (s : List Char) : List Char :=
  s.map fun c => if c = pat then rep else c

/-- Embedding of the chained replace calls of _generate_filename in
etf_data_manager.py (the loop of etf_min_data_downloader.py walks the same
nine characters). -/
def sanitizeName (name : List Char) : List Char :=
  replaceChar '|' '_' (replaceChar '>' '_' (replaceChar '<' '_' (replaceChar '?' '_'
    (replaceChar '"' '_' (replaceChar ':' '_' (replaceChar '\\' '_'
    (replaceChar '/' '_' (replaceChar '*' '_' name))))))))

/-- Embedding of _generate_filename of etf_data_manager.py: the symbol and
the sanitized display name joined by an underscore, with extension csv. -/
def generate_filename (symbol name : List Char) : List Char :=
  symbol ++ ('_' :: sanitizeName name) ++ ".csv".toList

/-- Embedding of _generate_filename of etf_min_data_downloader.py: the same
joining with the period tag appended before the extension. -/
def generate_filename_min (symbol name period : List Char) : List Char :=
  symbol ++ ('_' :: sanitizeName name) ++ ('_' :: period) ++ "min.csv".toList

/-- The character map that the specification words describe: each of the
nine listed characters becomes an underscore, all others are kept. -/
def specSanitizeChar (c : Char) : Char :=
  if c ∈ ['*', '/', '\\', ':', '"', '?', '<', '>', '|'] then '_' else c

/-- Embedding of _sync_existing_files_to_progress of etf_data_manager.py:
walk the symbols found on disk; a symbol not yet marked downloaded is added
to the downloaded set and removed from the failed set. -/
def sync_existing_files_to_progress :
    List String → Finset String → Finset String → Finset String × Finset String
  | [], downloaded, failed => (downloaded, failed)
  | s :: rest, downloaded, failed =>
    if s ∈ downloaded then
      sync_existing_files_to_progress rest downloaded failed
    else
      sync_existing_files_to_progress rest (insert s downloaded) (failed.erase s)

/-- A small JSON value model, sufficient for the shapes json.dump receives
in both _save_progress functions. -/
inductive Json where
  | str : String → Json
  | arr : List Json → Json
  | obj : List (String × Json) → Json

/-- Whether a JSON value is an object (a mapping). -/
def Json.isObj : Json → Bool
  | .obj _ => true
  | _ => false

/-- Look a key up in a JSON object. -/
def Json.field (name : String) : Json → Option Json
  | .obj kvs => kvs.lookup name
  | _ => none

/-- Whether a JSON value is an object all of whose values are objects,
that is a mapping from keys to sub-key mappings. -/
def Json.valuesAreObjs : Json → Bool
  | .obj kvs => kvs.all fun p => p.2.isObj
  | _ => false

/-- Embedding of the dictionary passed to json.dump by _save_progress of
etf_data_manager.py: downloaded and failed are flat lists of symbols. -/
def save_progress_daily (downloaded failed : List String)
    (lastUpdate lastUpdateStart : String) : Json :=
  .obj [("downloaded", .arr (downloaded.map .str)),
        ("failed", .arr (failed.map .str)),
        ("last_update", .str lastUpdate),
        ("last_update_start", .str lastUpdateStart)]

/-- The per-period entry stored under downloaded by download_all_etfs of
etf_min_data_downloader.py. -/
structure MinDlEntry where
  last_date : String
  stat : String
  download_time : String

/-- The per-period entry stored under failed by download_all_etfs of
etf_min_data_downloader.py: the last attempt time and a reason tag. -/
structure MinFailEntry where
  last_attempt : String
  reason : String

/-- JSON form of a downloaded entry of the intraday ledger. -/
def MinDlEntry.toJson (e : MinDlEntry) : Json :=
  .obj [("last_date", .str e.last_date), ("status", .str e.stat),
        ("download_time", .str e.download_time)]

/-- JSON form of a failed entry of the intraday ledger. -/
def MinFailEntry.toJson (e : MinFailEntry) : Json :=
  .obj [("last_attempt", .str e.last_attempt), ("reason", .str e.reason)]

/-- Embedding of the dictionary passed to json.dump by _save_progress of
etf_min_data_downloader.py: downloaded and failed map each symbol to a
mapping from period tag to an entry. -/
def save_progress_min (downloaded : List (String × List (String × MinDlEntry)))
    (failed : List (String × List (String × MinFailEntry)))
    (lastUpdate lastUpdateStart : String) : Json :=
  .obj [("downloaded", .obj (downloaded.map fun p =>
          (p.1, Json.obj (p.2.map fun q => (q.1, q.2.toJson))))),
        ("failed", .obj (failed.map fun p =>
          (p.1, Json.obj (p.2.map fun q => (q.1, q.2.toJson))))),
        ("last_update", .str lastUpdate),
        ("last_update_start", .str lastUpdateStart)]

/-- The file operations _save_progress performs on the ledger path: the
call open with mode w truncates the file, then json.dump writes the
serialized ledger. -/
inductive FsOp where
  | openTrunc : FsOp
  | writeAll : String → FsOp

/-- The operation sequence of _save_progress on the ledger file. -/
def save_progress_ops (newContent : String) : List FsOp :=
  [.openTrunc, .writeAll newContent]

/-- Effect of one file operation on the ledger file content. -/
def applyOp (_content : String) : FsOp → String
  | .openTrunc => ""
  | .writeAll s => s

/-- The ledger file contents observable at every point during a save:
before the save, after the truncating open, and after the write. A crash
can stop the sequence at any of these states. -/
def saveStates (oldContent newContent : String) : List String :=
  (save_progress_ops newContent).scanl applyOp oldContent

/-- Outcome of _download_single_etf: whether it returned success, the rows
it returned (none on failure), the content it wrote to the dataset file
(none when it did not write), the number of fetch attempts it performed,
and the delays it slept between attempts. -/
structure DownloadResult where
  success : Bool
  data : Option (List Row)
  written : Option (List Row)
  attempts : Nat
  sleeps : List ℚ
deriving DecidableEq, Repr

/-- Embedding of the retry loop of _download_single_etf, iterating over the
remaining attempt indices. The fetch argument gives each attempt's outcome:
none models the provider call raising, some rows a call that completes.
An attempt that completes with zero rows returns failure at once without
writing; a nonempty result is written to the dataset file and returned as
success; a raising attempt sleeps retry delay times the attempt number,
except after the last attempt, and the loop then retries. -/
def runAttempts (fetch : Nat → Option (List Row)) (retryDelay : ℚ)
    (maxRetries : Nat) : List Nat → DownloadResult
  | [] => ⟨false, none, none, 0, []⟩
  | retry :: rest =>
    match fetch retry with
    | some rows =>
      if rows.isEmpty then ⟨false, none, none, 1, []⟩
      else ⟨true, some rows, some rows, 1, []⟩
    | none =>
      let wait := retryDelay * ((retry : ℚ) + 1)
      let r := runAttempts fetch retryDelay maxRetries rest
      ⟨r.success, r.data, r.written, r.attempts + 1,
        (if retry < maxRetries - 1 then [wait] else []) ++ r.sleeps⟩

/-- Embedding of _download_single_etf of etf_data_manager.py: run the retry
loop over attempt indices 0 to maxRetries - 1. -/
def download_single_etf (fetch : Nat → Option (List Row)) (maxRetries : Nat)
    (retryDelay : ℚ) : DownloadResult :=
  runAttempts fetch retryDelay maxRetries (List.range maxRetries)

/-- Embedding of the merge block of _update_single_etf (the lines that read
the existing rows, keep only fetched rows whose date is not already
present, concatenate, and sort by the date column). Order among rows of
equal date is irrelevant under the unique-date invariant, so the pandas
sort by the date key is modelled by a sort on the date key. -/
def mergeUpdate (existing fetched : List Row) : List Row :=
  let existingDates := existing.map Row.date
  let trulyNew := fetched.filter fun r => decide (r.date ∉ existingDates)
  List.insertionSort (fun a b => a.date ≤ b.date) (existing ++ trulyNew)

/-- Outcome of _update_single_etf: the returned success flag and new-record
count, the dataset file content after the call, and whether any write to
the dataset file happened during the call. -/
structure UpdResult where
  success : Bool
  newRecords : Nat
  file : Option (List Row)
  wrote : Bool
deriving DecidableEq, Repr

/-- Embedding of the incremental range computation of _update_single_etf:
the day after the last readable local date, defaulting to thirty days
before today when the last date is unreadable, up to today. -/
def resolveUpdateRange (today : Nat) (rows : List Row) : Nat × Nat :=
  (((lastDateOf rows).getD (today - 30)) + 1, today)

/-- Embedding of _update_single_etf of etf_data_manager.py for a provider
whose calls complete deterministically (provider s e gives the rows for the
range s to e; the retry loop is entered with every attempt completing).
A missing file fails at once. When the start of the resolved range is not
before its end the symbol is already current and nothing is fetched.
Otherwise _download_single_etf runs; as in the source it writes the fetched
rows to the dataset file itself on success, before the merge block reads
that same file back as the existing data. Failure or an empty fetch
returns failure with zero new records. Otherwise the merge block keeps the
fetched rows whose dates are new, and if any exist writes the merged
dataset. -/
def update_single_etf (provider : Nat → Nat → List Row) (today : Nat)
    (maxRetries : Nat) (retryDelay : ℚ) (file : Option (List Row)) : UpdResult :=
  match file with
  | none => ⟨false, 0, none, false⟩
  | some rows =>
    let range := resolveUpdateRange today rows
    let startD := range.1
    let endD := range.2
    if startD ≥ endD then ⟨true, 0, some rows, false⟩
    else
      let dl := download_single_etf (fun _ => some (provider startD endD))
        maxRetries retryDelay
      let fileAfter := dl.written.getD rows
      match dl.data with
      | none => ⟨false, 0, some fileAfter, dl.written.isSome⟩
      | some newData =>
        let existingDates := fileAfter.map Row.date
        let trulyNew := newData.filter fun r => decide (r.date ∉ existingDates)
        if trulyNew.isEmpty then ⟨true, 0, some fileAfter, dl.written.isSome⟩
        else ⟨true, trulyNew.length, some (mergeUpdate fileAfter newData), true⟩

/-- The download directory: an association list from symbol to the rows of
that symbol's dataset file. -/
abbrev FileStore : Type := List (String × List Row)

/-- Content of a symbol's dataset file, none when no file exists. -/
def lookupStore (fs : FileStore) (s : String) : Option (List Row) :=
  List.lookup s fs

/-- Overwrite a symbol's dataset file content. -/
def setStore (fs : FileStore) (s : String) (rows : List Row) : FileStore :=
  List.map (fun p => if p.1 = s then (s, rows) else p) fs

/-- The run statistics update_existing_data accumulates. -/
structure RunStats where
  success_count : Nat
  fail_count : Nat
  failed_symbols : List String
  total_new_records : Nat
deriving DecidableEq, Repr

/-- The state the engine loop threads: the dataset files, the downloaded
and failed ledger sets, and the run statistics. -/
structure EngState where
  files : FileStore
  downloaded : Finset String
  failedSet : Finset String
  stats : RunStats

/-- Embedding of one iteration of the loop of update_existing_data: run the
per-symbol update, apply its file write if any, then record the outcome in
the ledger sets and the statistics. -/
def engineStep (provider : String → Nat → Nat → List Row) (today : Nat)
    (maxRetries : Nat) (retryDelay : ℚ) (st : EngState) (s : String) : EngState :=
  let r := update_single_etf (provider s) today maxRetries retryDelay
    (lookupStore st.files s)
  let files1 := match r.file, r.wrote with
    | some rows, true => setStore st.files s rows
    | _, _ => st.files
  if r.success then
    { files := files1,
      downloaded := insert s st.downloaded,
      failedSet := st.failedSet.erase s,
      stats := { st.stats with
        success_count := st.stats.success_count + 1,
        total_new_records := st.stats.total_new_records + r.newRecords } }
  else
    { files := files1,
      downloaded := st.downloaded,
      failedSet := insert s st.failedSet,
      stats := { st.stats with
        fail_count := st.stats.fail_count + 1,
        failed_symbols := st.stats.failed_symbols ++ [s] } }

/-- Embedding of update_existing_data of etf_data_manager.py: the symbols
to update are the existing ones when no list is requested, otherwise the
requested symbols restricted to those that have a dataset file on disk;
the loop then updates each in turn. -/
def update_existing_data (provider : String → Nat → Nat → List Row)
    (today : Nat) (maxRetries : Nat) (retryDelay : ℚ) (fs : FileStore)
    (downloaded failedSet : Finset String)
    (requested : Option (List String)) : EngState :=
  let existing := List.map Prod.fst fs
  let toUpdate := match requested with
    | none => existing
    | some syms => syms.filter fun s => decide (s ∈ existing)
  toUpdate.foldl (engineStep provider today maxRetries retryDelay)
    ⟨fs, downloaded, failedSet, ⟨0, 0, [], 0⟩⟩

/-- The chained one-character replacements of the source equal a single
character map that sends each of the nine listed characters to an
underscore and keeps every other character. -/
theorem sanitizeName_eq_map (name : List Char) :
    sanitizeName name = name.map specSanitizeChar := by
  simp only [sanitizeName, replaceChar, List.map_map]
  apply List.map_congr_left
  intro c _
  by_cases hc : c ∈ ['*', '/', '\\', ':', '"', '?', '<', '>', '|']
  · fin_cases hc <;> rfl
  · simp only [List.mem_cons, List.not_mem_nil, or_false, not_or] at hc
    obtain ⟨h1, h2, h3, h4, h5, h6, h7, h8, h9⟩ := hc
    simp [Function.comp, specSanitizeChar, h1, h2, h3, h4, h5, h6, h7, h8, h9]

/-- C10: for every symbol and display name, the dataset filename replaces
each of the characters star, slash, backslash, colon, double quote,
question mark, angle brackets and pipe in the display name with an
underscore and joins the symbol and the sanitized name with an underscore;
the intraday variant further appends the period tag; in particular symbol
000001 with display name A/B*C produces the filename 000001_A_B_C.csv. -/
theorem generate_filename_correct :
    (∀ symbol name, generate_filename symbol name =
      symbol ++ ('_' :: name.map specSanitizeChar) ++ ".csv".toList)
    ∧ (∀ symbol name period, generate_filename_min symbol name period =
      symbol ++ ('_' :: name.map specSanitizeChar) ++ ('_' :: period)
        ++ "min.csv".toList)
    ∧ generate_filename "000001".toList "A/B*C".toList
        = "000001_A_B_C.csv".toList := by
  refine ⟨?_, ?_, ?_⟩
  · intro symbol name
    rw [generate_filename, sanitizeName_eq_map]
  · intro symbol name period
    rw [generate_filename_min, sanitizeName_eq_map]
  · decide

/-- Reconciliation starting from an arbitrary downloaded set and an empty
failed set adds every disk symbol to the downloaded set and leaves the
failed set empty. -/
theorem sync_fromStart (syms : List String) (dl : Finset String) :
    sync_existing_files_to_progress syms dl ∅ = (dl ∪ syms.toFinset, ∅) := by
  induction syms generalizing dl with
  | nil => simp [sync_existing_files_to_progress]
  | cons s rest ih =>
    simp only [sync_existing_files_to_progress, Finset.erase_empty]
    by_cases hs : s ∈ dl
    · rw [if_pos hs, ih]
      have : dl ∪ (s :: rest).toFinset = dl ∪ rest.toFinset := by
        rw [List.toFinset_cons, Finset.union_insert,
          Finset.insert_eq_self.mpr (Finset.mem_union_left _ hs)]
      rw [this]
    · rw [if_neg hs, ih]
      rw [List.toFinset_cons, Finset.insert_union, Finset.union_insert]

/-- C7: starting from an empty ledger, the filesystem reconciliation marks
every symbol that has a dataset file on disk as downloaded and leaves it
out of the failed set. -/
theorem sync_marks_downloaded (syms : List String) :
    sync_existing_files_to_progress syms ∅ ∅ = (syms.toFinset, ∅)
    ∧ ∀ s ∈ syms,
      s ∈ (sync_existing_files_to_progress syms ∅ ∅).1
      ∧ s ∉ (sync_existing_files_to_progress syms ∅ ∅).2 := by
  have h := sync_fromStart syms ∅
  rw [Finset.empty_union] at h
  refine ⟨h, fun s hs => ?_⟩
  rw [h]
  exact ⟨List.mem_toFinset.mpr hs, Finset.not_mem_empty s⟩

/-- With dataset files on disk for symbols A and B and an empty ledger,
reconciliation marks A as downloaded and in no failed set (and B
symmetrically by the same theorem). -/
theorem sync_marks_downloaded_witness :
    ("A" ∈ ["A", "B"])
    ∧ ("A" ∈ (sync_existing_files_to_progress ["A", "B"] ∅ ∅).1
       ∧ "A" ∉ (sync_existing_files_to_progress ["A", "B"] ∅ ∅).2) :=
  ⟨by decide, (sync_marks_downloaded ["A", "B"]).2 "A" (by decide)⟩

/-- C8 counterexample: the daily ledger that _save_progress of
etf_data_manager.py persists stores its downloaded entry as a flat array
of symbols, not as a mapping from symbol to sub-keys, so the claimed
common mapping-of-sets shape fails on the daily variant. -/
theorem ledger_shape_counterexample :
    (Json.field "downloaded"
        (save_progress_daily ["000001"] ["000002"] "t1" "t2")).map Json.isObj
      = some false
    ∧ (Json.field "failed"
        (save_progress_daily ["000001"] ["000002"] "t1" "t2")).map Json.isObj
      = some false := by
  exact ⟨rfl, rfl⟩

/-- C8 amended: the intraday ledger maps each symbol to a mapping of
per-period sub-keys, and each failed sub-entry carries a last-attempt time
and a reason tag; the daily ledger instead stores downloaded and failed as
flat arrays of symbols; both variants carry last_update and
last_update_start entries. -/
theorem ledger_shapes (dld fld : List String)
    (dlm : List (String × List (String × MinDlEntry)))
    (flm : List (String × List (String × MinFailEntry))) (lu lus : String) :
    (Json.field "downloaded" (save_progress_daily dld fld lu lus)).map Json.isObj
      = some false
    ∧ (Json.field "failed" (save_progress_daily dld fld lu lus)).map Json.isObj
      = some false
    ∧ (Json.field "downloaded" (save_progress_min dlm flm lu lus)).map
        Json.valuesAreObjs = some true
    ∧ (Json.field "failed" (save_progress_min dlm flm lu lus)).map
        Json.valuesAreObjs = some true
    ∧ (∀ e : MinFailEntry,
        e.toJson.field "last_attempt" = some (.str e.last_attempt)
        ∧ e.toJson.field "reason" = some (.str e.reason))
    ∧ Json.field "last_update" (save_progress_daily dld fld lu lus)
        = some (.str lu)
    ∧ Json.field "last_update_start" (save_progress_daily dld fld lu lus)
        = some (.str lus)
    ∧ Json.field "last_update" (save_progress_min dlm flm lu lus)
        = some (.str lu)
    ∧ Json.field "last_update_start" (save_progress_min dlm flm lu lus)
        = some (.str lus) := by
  refine ⟨rfl, rfl, ?_, ?_, fun e => ⟨rfl, rfl⟩, rfl, rfl, rfl, rfl⟩
  · have hfield : Json.field "downloaded" (save_progress_min dlm flm lu lus)
        = some (Json.obj (dlm.map fun p =>
            (p.1, Json.obj (p.2.map fun q => (q.1, q.2.toJson))))) := rfl
    rw [hfield, Option.map_some']
    simp only [Json.valuesAreObjs, Option.some.injEq]
    rw [List.all_eq_true]
    intro x hx
    obtain ⟨p, _, rfl⟩ := List.mem_map.mp hx
    rfl
  · have hfield : Json.field "failed" (save_progress_min dlm flm lu lus)
        = some (Json.obj (flm.map fun p =>
            (p.1, Json.obj (p.2.map fun q => (q.1, q.2.toJson))))) := rfl
    rw [hfield, Option.map_some']
    simp only [Json.valuesAreObjs, Option.some.injEq]
    rw [List.all_eq_true]
    intro x hx
    obtain ⟨p, _, rfl⟩ := List.mem_map.mp hx
    rfl

/-- C4 counterexample: during a save of the ledger, an observable
intermediate file state (the truncated empty file) is neither the previous
nor the new fully-written ledger, so the save is not atomic. -/
theorem save_progress_atomic_counterexample :
    ¬ ∀ s ∈ saveStates "old-ledger" "new-ledger",
        s = "old-ledger" ∨ s = "new-ledger" := by
  decide

/-- C4 amended: a save of the progress ledger is not atomic: it truncates
the target file in place and then writes, so a crash between the
truncating open and the completed write leaves the ledger file empty,
which is neither the previous nor the new fully-written state; an
uninterrupted save ends with the new fully-written content. -/
theorem save_progress_truncates (oldContent newContent : String)
    (h1 : oldContent ≠ "") (h2 : newContent ≠ "") :
    (∃ s ∈ saveStates oldContent newContent,
      s ≠ oldContent ∧ s ≠ newContent)
    ∧ (saveStates oldContent newContent).getLast? = some newContent := by
  refine ⟨⟨"", ?_, fun h => h1 h.symm, fun h => h2 h.symm⟩, rfl⟩
  simp [saveStates, save_progress_ops, applyOp]

/-- The non-atomicity of the ledger save at a concrete previous and new
ledger content. -/
theorem save_progress_truncates_witness :
    ("old-ledger" ≠ "" ∧ "new-ledger" ≠ "")
    ∧ ((∃ s ∈ saveStates "old-ledger" "new-ledger",
          s ≠ "old-ledger" ∧ s ≠ "new-ledger")
       ∧ (saveStates "old-ledger" "new-ledger").getLast? = some "new-ledger") :=
  ⟨⟨by decide, by decide⟩,
    save_progress_truncates "old-ledger" "new-ledger" (by decide) (by decide)⟩

/-- When every attempt raises, the retry loop over any list of attempt
indices fails, makes one attempt per index, and sleeps the backoff delay
after every attempt whose index is below the last index of the loop. -/
theorem runAttempts_allFail (fetch : Nat → Option (List Row)) (retryDelay : ℚ)
    (maxRetries : Nat) (h : ∀ k, fetch k = none) :
    ∀ l : List Nat, runAttempts fetch retryDelay maxRetries l =
      ⟨false, none, none, l.length,
        (l.filter fun k => decide (k < maxRetries - 1)).map
          fun k => retryDelay * ((k : ℚ) + 1)⟩
  | [] => rfl
  | retry :: rest => by
    have ih := runAttempts_allFail fetch retryDelay maxRetries h rest
    simp only [runAttempts, h retry, ih, List.length_cons]
    by_cases hr : retry < maxRetries - 1
    · simp [hr, List.filter_cons]
    · simp [hr, List.filter_cons]

/-- Attempt indices strictly below n are exactly the first n indices of the
loop over n plus one indices. -/
theorem filter_lt_range (n : Nat) :
    ((List.range (n + 1)).filter fun k => decide (k < n)) = List.range n := by
  rw [List.range_succ, List.filter_append]
  have h1 : ((List.range n).filter fun k => decide (k < n)) = List.range n :=
    List.filter_eq_self.mpr fun k hk => by simpa using List.mem_range.mp hk
  have h2 : ([n].filter fun k => decide (k < n)) = [] := by simp
  rw [h1, h2, List.append_nil]

/-- C3: a symbol whose every fetch attempt raises is attempted exactly
maxRetries times; after each failed attempt except the last the loop
sleeps the backoff base times the attempt number; the download then
reports failure. -/
theorem retry_exhaustion (fetch : Nat → Option (List Row)) (maxRetries : Nat)
    (retryDelay : ℚ) (h : ∀ k, fetch k = none) :
    download_single_etf fetch maxRetries retryDelay =
      ⟨false, none, none, maxRetries,
        (List.range (maxRetries - 1)).map fun k => retryDelay * ((k : ℚ) + 1)⟩ := by
  rw [download_single_etf, runAttempts_allFail fetch retryDelay maxRetries h]
  cases maxRetries with
  | zero => rfl
  | succ n =>
    rw [List.length_range]
    rw [show n + 1 - 1 = n from rfl, filter_lt_range]

/-- Retry exhaustion at maxRetries three and backoff base two: three
attempts, sleeps of two and four seconds, and failure. -/
theorem retry_exhaustion_witness :
    (∀ k : Nat, (fun _ : Nat => (none : Option (List Row))) k = none)
    ∧ download_single_etf (fun _ => none) 3 2 =
      ⟨false, none, none, 3, [2, 4]⟩ :=
  ⟨fun _ => rfl, by
    rw [retry_exhaustion (fun _ => none) 3 2 fun _ => rfl]
    norm_num [List.range_succ]⟩

/-- C1: on inputs whose dates are each free of duplicates, the merge block
of the incremental update returns a permutation of the existing rows
followed by exactly those fetched rows whose date is not already present,
and its date column is strictly increasing, hence duplicate free: dates in
both inputs keep the existing row, dates only in the fetched input are
appended, and the result is sorted ascending by date. -/
theorem mergeUpdate_correct (existing fetched : List Row)
    (he : (existing.map Row.date).Nodup) (hf : (fetched.map Row.date).Nodup) :
    (mergeUpdate existing fetched).Perm
      (existing ++ fetched.filter fun r => decide (r.date ∉ existing.map Row.date))
    ∧ ((mergeUpdate existing fetched).map Row.date).Pairwise (· < ·) := by
  have hperm : (mergeUpdate existing fetched).Perm
      (existing ++ fetched.filter fun r => decide (r.date ∉ existing.map Row.date)) :=
    List.perm_insertionSort _ _
  refine ⟨hperm, ?_⟩
  have hsorted : List.Sorted (fun a b : Row => a.date ≤ b.date)
      (mergeUpdate existing fetched) := List.sorted_insertionSort _ _
  have hnodup : ((mergeUpdate existing fetched).map Row.date).Nodup := by
    refine ((hperm.map Row.date).nodup_iff).mpr ?_
    rw [List.map_append, List.nodup_append]
    refine ⟨he, hf.sublist ((List.filter_sublist _).map Row.date), ?_⟩
    intro a ha hb
    obtain ⟨r, hr, rfl⟩ := List.mem_map.mp hb
    have hmem := (List.mem_filter.mp hr).2
    simp only [decide_eq_true_eq] at hmem
    exact hmem ha
  have hpair : ((mergeUpdate existing fetched).map Row.date).Pairwise (· ≤ ·) := by
    rw [List.pairwise_map]
    exact hsorted
  exact (hpair.and hnodup).imp fun h => lt_of_le_of_ne h.1 h.2

/-- The merge at the claim's concrete instance: existing rows for five
consecutive dates, a fetch covering the last two of them plus three new
dates, giving eight rows in order with the overlapping dates keeping the
pre-existing values. -/
theorem mergeUpdate_correct_witness :
    ((([⟨1, 10⟩, ⟨2, 20⟩, ⟨3, 30⟩, ⟨4, 40⟩, ⟨5, 50⟩] : List Row).map Row.date).Nodup
      ∧ ((([⟨4, 99⟩, ⟨5, 98⟩, ⟨6, 60⟩, ⟨7, 70⟩, ⟨8, 80⟩] : List Row)).map Row.date).Nodup)
    ∧ ((mergeUpdate [⟨1, 10⟩, ⟨2, 20⟩, ⟨3, 30⟩, ⟨4, 40⟩, ⟨5, 50⟩]
          [⟨4, 99⟩, ⟨5, 98⟩, ⟨6, 60⟩, ⟨7, 70⟩, ⟨8, 80⟩]).Perm
        ([⟨1, 10⟩, ⟨2, 20⟩, ⟨3, 30⟩, ⟨4, 40⟩, ⟨5, 50⟩] ++
          ([⟨4, 99⟩, ⟨5, 98⟩, ⟨6, 60⟩, ⟨7, 70⟩, ⟨8, 80⟩] : List Row).filter fun r =>
            decide (r.date ∉ ([⟨1, 10⟩, ⟨2, 20⟩, ⟨3, 30⟩, ⟨4, 40⟩, ⟨5, 50⟩] : List Row).map Row.date))
       ∧ ((mergeUpdate [⟨1, 10⟩, ⟨2, 20⟩, ⟨3, 30⟩, ⟨4, 40⟩, ⟨5, 50⟩]
            [⟨4, 99⟩, ⟨5, 98⟩, ⟨6, 60⟩, ⟨7, 70⟩, ⟨8, 80⟩]).map Row.date).Pairwise (· < ·))
    ∧ mergeUpdate [⟨1, 10⟩, ⟨2, 20⟩, ⟨3, 30⟩, ⟨4, 40⟩, ⟨5, 50⟩]
        [⟨4, 99⟩, ⟨5, 98⟩, ⟨6, 60⟩, ⟨7, 70⟩, ⟨8, 80⟩]
      = [⟨1, 10⟩, ⟨2, 20⟩, ⟨3, 30⟩, ⟨4, 40⟩, ⟨5, 50⟩, ⟨6, 60⟩, ⟨7, 70⟩, ⟨8, 80⟩] :=
  ⟨⟨by decide, by decide⟩,
    mergeUpdate_correct _ _ (by decide) (by decide),
    by decide⟩

/-- A download whose fetch completes with zero rows fails without
returning data and without writing the dataset file. -/
theorem download_empty_fetch (maxRetries : Nat) (retryDelay : ℚ) :
    (download_single_etf (fun _ => some []) maxRetries retryDelay).success = false
    ∧ (download_single_etf (fun _ => some []) maxRetries retryDelay).data = none
    ∧ (download_single_etf (fun _ => some []) maxRetries retryDelay).written = none := by
  cases maxRetries with
  | zero => exact ⟨rfl, rfl, rfl⟩
  | succ n =>
    rw [download_single_etf, List.range_succ_eq_map]
    exact ⟨rfl, rfl, rfl⟩

/-- When the dataset file has readable last date d, the range triggers a
fetch, and the provider completes with zero rows, the per-symbol update
returns failure, zero new records, the unchanged file, and no write. -/
theorem update_single_empty_fetch (provider : Nat → Nat → List Row) (today : Nat)
    (maxRetries : Nat) (retryDelay : ℚ) (rows : List Row) (d : Nat)
    (h1 : lastDateOf rows = some d) (h2 : d + 1 < today)
    (h3 : provider (d + 1) today = []) :
    update_single_etf provider today maxRetries retryDelay (some rows)
      = ⟨false, 0, some rows, false⟩ := by
  simp only [update_single_etf, resolveUpdateRange, h1, Option.getD_some]
  rw [if_neg (by omega)]
  simp only [h3]
  rw [(download_empty_fetch maxRetries retryDelay).2.1,
    (download_empty_fetch maxRetries retryDelay).2.2]
  rfl

/-- C2 counterexample: an update-mode fetch that completes with zero rows
makes the per-symbol update return success false, not success true as
claimed: file with last date 100, today 103, provider returning no rows. -/
theorem empty_fetch_claim_counterexample :
    ¬ ((update_single_etf (fun _ _ => []) 103 3 2 (some [⟨100, 5⟩])).success
        = true) := by
  decide

/-- C2 amended: for a symbol whose dataset file has readable last date d
with d plus one before today, a provider fetch that completes successfully
but returns zero rows makes the per-symbol update return failure with zero
new records, no exception escaping, and no rewrite of the symbol's dataset
file. -/
theorem empty_fetch_failure (provider : Nat → Nat → List Row) (today : Nat)
    (maxRetries : Nat) (retryDelay : ℚ) (rows : List Row) (d : Nat)
    (h1 : lastDateOf rows = some d) (h2 : d + 1 < today)
    (h3 : provider (d + 1) today = []) :
    update_single_etf provider today maxRetries retryDelay (some rows)
      = ⟨false, 0, some rows, false⟩ :=
  update_single_empty_fetch provider today maxRetries retryDelay rows d h1 h2 h3

/-- The empty-fetch update at a concrete input: one row dated 100, today
103, a provider returning no rows for the range 101 to 103. -/
theorem empty_fetch_failure_witness :
    (lastDateOf [⟨100, 5⟩] = some 100 ∧ 100 + 1 < 103
      ∧ (fun _ _ => ([] : List Row)) (100 + 1) 103 = [])
    ∧ update_single_etf (fun _ _ => []) 103 3 2 (some [⟨100, 5⟩])
        = ⟨false, 0, some [⟨100, 5⟩], false⟩ :=
  ⟨⟨rfl, by decide, rfl⟩,
    empty_fetch_failure (fun _ _ => []) 103 3 2 [⟨100, 5⟩] 100 rfl (by decide) rfl⟩

/-- C5 counterexample: a dataset file whose last date is unreadable (a
file holding no readable data row) does not make the update fail before
fetching: with a provider that has a row dated 98, the update fetches,
writes and returns success. -/
theorem missing_baseline_counterexample :
    lastDateOf ([] : List Row) = none
    ∧ (update_single_etf (fun _ _ => [⟨98, 7⟩]) 103 3 2
        (some ([] : List Row))).success = true
    ∧ (update_single_etf (fun _ _ => [⟨98, 7⟩]) 103 3 2
        (some ([] : List Row))).wrote = true :=
  ⟨rfl, by decide, by decide⟩

/-- C5 amended: a missing dataset file makes the per-symbol update fail at
once without fetching or writing; when the file exists and its last date d
is readable the incremental range is d plus one day up to today; when the
file exists but its last date is unreadable the source substitutes a
default baseline of today minus thirty days and the range becomes today
minus twenty-nine days up to today instead of failing. -/
theorem update_range_resolution (provider : Nat → Nat → List Row) (today : Nat)
    (maxRetries : Nat) (retryDelay : ℚ) :
    update_single_etf provider today maxRetries retryDelay none
      = ⟨false, 0, none, false⟩
    ∧ (∀ rows d, lastDateOf rows = some d →
        resolveUpdateRange today rows = (d + 1, today))
    ∧ (∀ rows, lastDateOf rows = none →
        resolveUpdateRange today rows = (today - 30 + 1, today)) := by
  refine ⟨rfl, ?_, ?_⟩
  · intro rows d h
    simp [resolveUpdateRange, h]
  · intro rows h
    simp [resolveUpdateRange, h]

/-- The range resolution at concrete inputs: a readable last date 100 with
today 103 gives the range 101 to 103; an unreadable last date with today
103 gives the default range 74 to 103; a missing file fails. -/
theorem update_range_resolution_witness :
    (lastDateOf [⟨100, 5⟩] = some 100
      ∧ resolveUpdateRange 103 [⟨100, 5⟩] = (101, 103))
    ∧ (lastDateOf ([] : List Row) = none
      ∧ resolveUpdateRange 103 ([] : List Row) = (74, 103))
    ∧ update_single_etf (fun _ _ => []) 103 3 2 none
        = ⟨false, 0, none, false⟩ :=
  ⟨⟨rfl, (update_range_resolution (fun _ _ => []) 103 3 2).2.1 [⟨100, 5⟩] 100 rfl⟩,
   ⟨rfl, (update_range_resolution (fun _ _ => []) 103 3 2).2.2 [] rfl⟩,
   (update_range_resolution (fun _ _ => []) 103 3 2).1⟩

/-- A successful association-list lookup exhibits a matching entry. -/
theorem lookupStore_mem : ∀ {fs : FileStore} {s : String} {rows : List Row},
    lookupStore fs s = some rows → (s, rows) ∈ fs := by
  intro fs
  induction fs with
  | nil =>
    intro s rows h
    simp [lookupStore, List.lookup] at h
  | cons p rest ih =>
    intro s rows h
    obtain ⟨k, b⟩ := p
    rw [lookupStore, List.lookup] at h
    cases hks : (s == k) with
    | true =>
      rw [hks] at h
      obtain rfl : b = rows := by simpa using h
      obtain rfl : s = k := eq_of_beq hks
      exact List.mem_cons_self _ _
    | false =>
      rw [hks] at h
      exact List.mem_cons_of_mem _ (ih h)

/-- A failing association-list lookup means the key is absent. -/
theorem lookupStore_none_not_key : ∀ {fs : FileStore} {s : String},
    lookupStore fs s = none → s ∉ fs.map Prod.fst := by
  intro fs
  induction fs with
  | nil =>
    intro s _ hm
    simp at hm
  | cons p rest ih =>
    intro s h hm
    obtain ⟨k, b⟩ := p
    rw [lookupStore, List.lookup] at h
    cases hks : (s == k) with
    | true => rw [hks] at h; exact Option.noConfusion h
    | false =>
      rw [hks] at h
      rcases List.mem_cons.mp hm with hk | hrest
      · exact absurd (by simp [hk] : (s == k) = true) (by rw [hks]; decide)
      · exact ih h hrest

/-- Per-symbol update when the provider has no data after the symbol's
readable last local date: zero new records, unchanged file, no write. -/
theorem update_single_no_new (provider : Nat → Nat → List Row) (today : Nat)
    (maxRetries : Nat) (retryDelay : ℚ) (rows : List Row) (d : Nat)
    (h1 : lastDateOf rows = some d) (h2 : provider (d + 1) today = []) :
    (update_single_etf provider today maxRetries retryDelay (some rows)).newRecords = 0
    ∧ (update_single_etf provider today maxRetries retryDelay (some rows)).file
        = some rows
    ∧ (update_single_etf provider today maxRetries retryDelay (some rows)).wrote
        = false := by
  by_cases hle : d + 1 ≥ today
  · have heq : update_single_etf provider today maxRetries retryDelay (some rows)
        = ⟨true, 0, some rows, false⟩ := by
      simp only [update_single_etf, resolveUpdateRange, h1, Option.getD_some]
      rw [if_pos hle]
    rw [heq]
    exact ⟨rfl, rfl, rfl⟩
  · have heq := update_single_empty_fetch provider today maxRetries retryDelay
      rows d h1 (by omega) h2
    rw [heq]
    exact ⟨rfl, rfl, rfl⟩

/-- The engine loop neither changes any dataset file nor accumulates new
records while every on-disk dataset has a readable last date past which
the provider has no data. -/
theorem engine_fold_no_new (provider : String → Nat → Nat → List Row)
    (today maxRetries : Nat) (retryDelay : ℚ) :
    ∀ (l : List String) (st : EngState),
      (∀ p ∈ st.files, ∃ d, lastDateOf p.2 = some d
        ∧ provider p.1 (d + 1) today = []) →
      ((l.foldl (engineStep provider today maxRetries retryDelay) st).files
          = st.files
        ∧ (l.foldl (engineStep provider today maxRetries retryDelay)
            st).stats.total_new_records = st.stats.total_new_records)
  | [], _, _ => ⟨rfl, rfl⟩
  | s :: rest, st, h => by
    rw [List.foldl_cons]
    have hstep :
        (engineStep provider today maxRetries retryDelay st s).files = st.files
        ∧ (engineStep provider today maxRetries retryDelay st s).stats.total_new_records
            = st.stats.total_new_records := by
      cases hl : lookupStore st.files s with
      | none =>
        have hu : update_single_etf (provider s) today maxRetries retryDelay
            (lookupStore st.files s) = ⟨false, 0, none, false⟩ := by
          rw [hl]
          rfl
        simp [engineStep, hu]
      | some rows =>
        obtain ⟨d, hd, hp⟩ := h (s, rows) (lookupStore_mem hl)
        have hu := update_single_no_new (provider s) today maxRetries retryDelay
          rows d hd hp
        by_cases hs : (update_single_etf (provider s) today maxRetries retryDelay
            (some rows)).success
        · simp [engineStep, hl, hs, hu.1, hu.2.1, hu.2.2]
        · simp [engineStep, hl, hs, hu.2.1, hu.2.2]
    have h2 : ∀ p ∈ (engineStep provider today maxRetries retryDelay st s).files,
        ∃ d, lastDateOf p.2 = some d ∧ provider p.1 (d + 1) today = [] := by
      rw [hstep.1]
      exact h
    have ih := engine_fold_no_new provider today maxRetries retryDelay rest
      (engineStep provider today maxRetries retryDelay st s) h2
    exact ⟨ih.1.trans hstep.1, ih.2.trans hstep.2⟩

/-- One run of update_existing_data under the no-newer-data hypothesis
leaves every file unchanged and reports zero total new records. -/
theorem update_run_no_new (provider : String → Nat → Nat → List Row)
    (today maxRetries : Nat) (retryDelay : ℚ) (fs : FileStore)
    (downloaded failedSet : Finset String) (requested : Option (List String))
    (hwf : ∀ p ∈ fs, ∃ d, lastDateOf p.2 = some d
      ∧ provider p.1 (d + 1) today = []) :
    (update_existing_data provider today maxRetries retryDelay fs
        downloaded failedSet requested).files = fs
    ∧ (update_existing_data provider today maxRetries retryDelay fs
        downloaded failedSet requested).stats.total_new_records = 0 := by
  simp only [update_existing_data]
  exact engine_fold_no_new provider today maxRetries retryDelay _
    ⟨fs, downloaded, failedSet, ⟨0, 0, [], 0⟩⟩ hwf

/-- C6: running the update operation twice consecutively, while the remote
provider has no data newer than any local dataset, yields zero total new
records on the second run and leaves every on-disk dataset file identical
after the second run to its state after the first. -/
theorem update_idempotent (provider : String → Nat → Nat → List Row)
    (today maxRetries : Nat) (retryDelay : ℚ) (fs : FileStore)
    (downloaded failedSet : Finset String) (requested : Option (List String))
    (hwf : ∀ p ∈ fs, ∃ d, lastDateOf p.2 = some d
      ∧ provider p.1 (d + 1) today = []) :
    (update_existing_data provider today maxRetries retryDelay
        (update_existing_data provider today maxRetries retryDelay fs
          downloaded failedSet requested).files
        (update_existing_data provider today maxRetries retryDelay fs
          downloaded failedSet requested).downloaded
        (update_existing_data provider today maxRetries retryDelay fs
          downloaded failedSet requested).failedSet
        requested).stats.total_new_records = 0
    ∧ (update_existing_data provider today maxRetries retryDelay
        (update_existing_data provider today maxRetries retryDelay fs
          downloaded failedSet requested).files
        (update_existing_data provider today maxRetries retryDelay fs
          downloaded failedSet requested).downloaded
        (update_existing_data provider today maxRetries retryDelay fs
          downloaded failedSet requested).failedSet
        requested).files
      = (update_existing_data provider today maxRetries retryDelay fs
          downloaded failedSet requested).files := by
  have h1 := update_run_no_new provider today maxRetries retryDelay fs
    downloaded failedSet requested hwf
  have h2 := update_run_no_new provider today maxRetries retryDelay
    (update_existing_data provider today maxRetries retryDelay fs
      downloaded failedSet requested).files
    (update_existing_data provider today maxRetries retryDelay fs
      downloaded failedSet requested).downloaded
    (update_existing_data provider today maxRetries retryDelay fs
      downloaded failedSet requested).failedSet
    requested (by rw [h1.1]; exact hwf)
  exact ⟨h2.2, h2.1⟩

/-- Idempotence at a concrete store: one symbol whose file ends at date
100, today 103, and a provider with no rows after date 100. -/
theorem update_idempotent_witness :
    (∀ p ∈ ([("000001", [⟨100, 5⟩])] : FileStore),
      ∃ d, lastDateOf p.2 = some d
        ∧ (fun _ _ _ => ([] : List Row)) p.1 (d + 1) 103 = [])
    ∧ ((update_existing_data (fun _ _ _ => []) 103 3 2
          (update_existing_data (fun _ _ _ => []) 103 3 2
            [("000001", [⟨100, 5⟩])] ∅ ∅ none).files
          (update_existing_data (fun _ _ _ => []) 103 3 2
            [("000001", [⟨100, 5⟩])] ∅ ∅ none).downloaded
          (update_existing_data (fun _ _ _ => []) 103 3 2
            [("000001", [⟨100, 5⟩])] ∅ ∅ none).failedSet
          none).stats.total_new_records = 0
       ∧ (update_existing_data (fun _ _ _ => []) 103 3 2
            (update_existing_data (fun _ _ _ => []) 103 3 2
              [("000001", [⟨100, 5⟩])] ∅ ∅ none).files
            (update_existing_data (fun _ _ _ => []) 103 3 2
              [("000001", [⟨100, 5⟩])] ∅ ∅ none).downloaded
            (update_existing_data (fun _ _ _ => []) 103 3 2
              [("000001", [⟨100, 5⟩])] ∅ ∅ none).failedSet
            none).files
          = (update_existing_data (fun _ _ _ => []) 103 3 2
              [("000001", [⟨100, 5⟩])] ∅ ∅ none).files) :=
  ⟨fun p hp => by
      rw [List.mem_singleton] at hp
      subst hp
      exact ⟨100, rfl, rfl⟩,
    update_idempotent (fun _ _ _ => []) 103 3 2 [("000001", [⟨100, 5⟩])] ∅ ∅ none
      (fun p hp => by
        rw [List.mem_singleton] at hp
        subst hp
        exact ⟨100, rfl, rfl⟩)⟩

/-- One engine step either leaves the failed-symbols list unchanged or
appends exactly the processed symbol. -/
theorem engineStep_failed_symbols (provider : String → Nat → Nat → List Row)
    (today maxRetries : Nat) (retryDelay : ℚ) (st : EngState) (t : String) :
    (engineStep provider today maxRetries retryDelay st t).stats.failed_symbols
      = st.stats.failed_symbols
    ∨ (engineStep provider today maxRetries retryDelay st t).stats.failed_symbols
      = st.stats.failed_symbols ++ [t] := by
  by_cases hs : (update_single_etf (provider t) today maxRetries retryDelay
      (lookupStore st.files t)).success = true
  · left
    simp [engineStep, hs]
  · right
    simp [engineStep, hs]

/-- One engine step either erases the processed symbol from the failed set
or inserts it, touching no other symbol. -/
theorem engineStep_failedSet (provider : String → Nat → Nat → List Row)
    (today maxRetries : Nat) (retryDelay : ℚ) (st : EngState) (t : String) :
    (engineStep provider today maxRetries retryDelay st t).failedSet
      = st.failedSet.erase t
    ∨ (engineStep provider today maxRetries retryDelay st t).failedSet
      = insert t st.failedSet := by
  by_cases hs : (update_single_etf (provider t) today maxRetries retryDelay
      (lookupStore st.files t)).success = true
  · left
    simp [engineStep, hs]
  · right
    simp [engineStep, hs]

/-- A symbol the loop never processes never enters the failed-symbols
statistics. -/
theorem engine_fold_failed_symbols (provider : String → Nat → Nat → List Row)
    (today maxRetries : Nat) (retryDelay : ℚ) :
    ∀ (l : List String) (st : EngState) (s : String), s ∉ l →
      s ∉ st.stats.failed_symbols →
      s ∉ (l.foldl (engineStep provider today maxRetries retryDelay)
          st).stats.failed_symbols
  | [], _, _, _, h2 => h2
  | t :: rest, st, s, h1, h2 => by
    rw [List.foldl_cons]
    have hts : s ≠ t := fun h => h1 (h ▸ List.mem_cons_self t rest)
    refine engine_fold_failed_symbols provider today maxRetries retryDelay rest _ s
      (fun h => h1 (List.mem_cons_of_mem _ h)) ?_
    rcases engineStep_failed_symbols provider today maxRetries retryDelay st t
      with he | he
    · rw [he]
      exact h2
    · rw [he]
      intro hmem
      rcases List.mem_append.mp hmem with hA | hB
      · exact h2 hA
      · exact hts (List.mem_singleton.mp hB)

/-- Membership of an unprocessed symbol in the failed set is invariant
under the loop. -/
theorem engine_fold_failedSet (provider : String → Nat → Nat → List Row)
    (today maxRetries : Nat) (retryDelay : ℚ) :
    ∀ (l : List String) (st : EngState) (s : String), s ∉ l →
      ((s ∈ (l.foldl (engineStep provider today maxRetries retryDelay)
          st).failedSet) ↔ s ∈ st.failedSet)
  | [], _, _, _ => Iff.rfl
  | t :: rest, st, s, h1 => by
    rw [List.foldl_cons]
    have hts : s ≠ t := fun h => h1 (h ▸ List.mem_cons_self t rest)
    have ih := engine_fold_failedSet provider today maxRetries retryDelay rest
      (engineStep provider today maxRetries retryDelay st t) s
      (fun h => h1 (List.mem_cons_of_mem _ h))
    rw [ih]
    rcases engineStep_failedSet provider today maxRetries retryDelay st t
      with he | he
    · rw [he, Finset.mem_erase]
      simp [hts]
    · rw [he, Finset.mem_insert]
      simp [hts]

/-- C9: a requested symbol without a dataset file on disk is silently
excluded before processing: the run equals the run on the request list
with that symbol removed, the symbol never enters the failed-symbols
statistics, and its membership in the failed ledger set is unchanged. -/
theorem update_excludes_missing (provider : String → Nat → Nat → List Row)
    (today maxRetries : Nat) (retryDelay : ℚ) (fs : FileStore)
    (downloaded failedSet : Finset String) (requested : List String) (s : String)
    (h : lookupStore fs s = none) :
    update_existing_data provider today maxRetries retryDelay fs downloaded
        failedSet (some requested)
      = update_existing_data provider today maxRetries retryDelay fs downloaded
          failedSet (some (requested.filter fun x => decide (x ≠ s)))
    ∧ s ∉ (update_existing_data provider today maxRetries retryDelay fs
        downloaded failedSet (some requested)).stats.failed_symbols
    ∧ ((s ∈ (update_existing_data provider today maxRetries retryDelay fs
        downloaded failedSet (some requested)).failedSet) ↔ s ∈ failedSet) := by
  have hkey : s ∉ List.map Prod.fst fs := lookupStore_none_not_key h
  have hfeq : (requested.filter fun x => decide (x ∈ List.map Prod.fst fs))
      = ((requested.filter fun x => decide (x ≠ s)).filter
          fun x => decide (x ∈ List.map Prod.fst fs)) := by
    rw [List.filter_filter]
    apply List.filter_congr
    intro x _
    by_cases hx : x ∈ List.map Prod.fst fs
    · have hxs : x ≠ s := fun hxx => hkey (hxx ▸ hx)
      simp [hx, hxs]
    · simp [hx]
  have hnot : s ∉ (requested.filter fun x => decide (x ∈ List.map Prod.fst fs)) := by
    intro hmem
    have hin := (List.mem_filter.mp hmem).2
    simp only [decide_eq_true_eq] at hin
    exact hkey hin
  refine ⟨?_, ?_, ?_⟩
  · simp only [update_existing_data]
    rw [hfeq]
  · simp only [update_existing_data]
    exact engine_fold_failed_symbols provider today maxRetries retryDelay _ _ s
      hnot (List.not_mem_nil s)
  · simp only [update_existing_data]
    exact engine_fold_failedSet provider today maxRetries retryDelay _ _ s hnot

/-- The exclusion at a concrete request: symbol 000002 has no file, the
request lists it together with 000001 which has one. -/
theorem update_excludes_missing_witness :
    lookupStore ([("000001", [⟨100, 5⟩])] : FileStore) "000002" = none
    ∧ (update_existing_data (fun _ _ _ => []) 103 3 2
          [("000001", [⟨100, 5⟩])] ∅ ∅ (some ["000002", "000001"])
        = update_existing_data (fun _ _ _ => []) 103 3 2
            [("000001", [⟨100, 5⟩])] ∅ ∅
            (some (["000002", "000001"].filter fun x => decide (x ≠ "000002")))
       ∧ "000002" ∉ (update_existing_data (fun _ _ _ => []) 103 3 2
            [("000001", [⟨100, 5⟩])] ∅ ∅
            (some ["000002", "000001"])).stats.failed_symbols
       ∧ (("000002" ∈ (update_existing_data (fun _ _ _ => []) 103 3 2
            [("000001", [⟨100, 5⟩])] ∅ ∅
            (some ["000002", "000001"])).failedSet) ↔ "000002" ∈ (∅ : Finset String))) :=
  ⟨rfl,
    update_excludes_missing (fun _ _ _ => []) 103 3 2 [("000001", [⟨100, 5⟩])]
      ∅ ∅ ["000002", "000001"] "000002" rfl⟩
